import Mathlib

/-!
Shallow embedding of the Carpe Diem Harbour Pools app (src/app.js,
src/overview.js) for checking the natural-language specification.

Conventions of the embedding:
* A JS object used as a map (the visited map) is a function
  `String → Option VEntry`; `delete m[k]` removes the key, assignment
  overwrites it.
* The `done` field is modelled as `Bool`: every write in the program
  stores the boolean `true`, and the spec's data model declares `done`
  boolean.  JS truthiness of `done` is then `done = true`.
* `new Intl.DateTimeFormat('en-AU').format(new Date())` (the current
  date in DD/MM/YYYY display form) is passed in as the `today`
  parameter: real time is external input.
* Side effects (localStorage writes, re-renders) are recorded as an
  explicit event list in the order the program performs them.
-/

namespace HarbourPools

/-- A pool record from the catalog (pools.json).  Coordinates are not
needed by any claim and are omitted; `suburb`/`stamp` are the optional
fields of the data model. -/
structure Pool where
  id : String
  name : String
  suburb : Option String := none
  stamp : Option String := none
deriving DecidableEq, Repr

/-- A visited-map entry: `{ done: true, date: "DD/MM/YYYY" }`. -/
structure VEntry where
  done : Bool
  date : String
deriving DecidableEq, Repr

/-- The visited map, keyed by pool id (a JS object). -/
def VisitedMap := String → Option VEntry

/-- The empty visited map (default when storage has no value). -/
def emptyVisited : VisitedMap := fun _ => none

/-- A pool id "has a VisitedEntry": the key is present in the map. -/
def hasEntry (vm : VisitedMap) (i : String) : Bool :=
  (vm i).isSome

/-- Truthiness of `visited[i]?.done` (app.js:213, the toggle guard). -/
def doneAt (vm : VisitedMap) (i : String) : Bool :=
  match vm i with
  | some e => e.done
  | none => false

/-- `const stamped = v?.done === true` in renderList (app.js:171). -/
def renderListStamped (vm : VisitedMap) (i : String) : Bool :=
  match vm i with
  | some e => e.done
  | none => false

/-- The filter predicate `visited[p.id]?.done` of renderStamps
(app.js:267). -/
def stampsFilterPred (vm : VisitedMap) (p : Pool) : Bool :=
  match vm p.id with
  | some e => e.done
  | none => false

/-- `const isVisited = !!(info && info.done)` in initOverviewMap
(overview.js:77-78). -/
def overviewIsVisited (vm : VisitedMap) (i : String) : Bool :=
  match vm i with
  | some e => e.done
  | none => false

/-- Events the app performs, in program order. -/
inductive Ev where
  | writeVisited
  | writeStampsPage
  | renderList
  | renderStamps
deriving DecidableEq, Repr

/-- Result of one `toggleStamp` call: the new in-memory visited map,
the map handed to `writeVisited` (the persisted one), and the events
in the order the function performs them. -/
structure ToggleResult where
  visited : VisitedMap
  persisted : VisitedMap
  events : List Ev

/-- `toggleStamp(poolId)` (app.js:210-223): if `visited[poolId]?.done`
is truthy the entry is deleted, otherwise `{done: true, date: today}`
is assigned; then `writeVisited(visited)`, `renderList()`,
`renderStamps(...)` run in that order. -/
def toggleStamp (vm : VisitedMap) (poolId : String) (today : String) :
    ToggleResult :=
  let vm' : VisitedMap :=
    if doneAt vm poolId then
      fun i => if i = poolId then none else vm i
    else
      fun i => if i = poolId then some ⟨true, today⟩ else vm i
  { visited := vm'
    persisted := vm'
    events := [.writeVisited, .renderList, .renderStamps] }

/-- The spec's data-model invariant for VisitedEntry: `done` is always
`true` when an entry is present. -/
def WellFormed (vm : VisitedMap) : Prop :=
  ∀ i e, vm i = some e → e.done = true

/-- Folding a sequence of toggle operations (pool id, today's date)
over a visited map, in order. -/
def applyToggles (ops : List (String × String)) (vm : VisitedMap) :
    VisitedMap :=
  ops.foldl (fun m op => (toggleStamp m op.1 op.2).visited) vm

/-- The digit test of the regex `^\d{4}-\d{2}-\d{2}$`: all eight
captured characters are decimal digits. -/
def isoDigits (a b c e f g h i : Char) : Bool :=
  a.isDigit && b.isDigit && c.isDigit && e.isDigit &&
  f.isDigit && g.isDigit && h.isDigit && i.isDigit

/-- Whether a string matches `^\d{4}-\d{2}-\d{2}$`: exactly ten
characters, hyphens at positions 4 and 7, digits elsewhere. -/
def isoShape (d : String) : Bool :=
  match d.toList with
  | [a, b, c, e, '-', f, g, '-', h, i] => isoDigits a b c e f g h i
  | _ => false

/-- The split-and-reassemble `d.split('-')` → `day/m/y` of
formatDateAU, expressed on the character list: for a string matching
the regex, `d.split('-')` is exactly `[y, m, day]` with `y` the first
four characters, `m` characters 5-6 and `day` characters 8-9. -/
def isoSwap (d : String) : String :=
  match d.toList with
  | [a, b, c, e, _, f, g, _, h, i] =>
      String.mk [h, i, '/', f, g, '/', a, b, c, e]
  | _ => d

/-- `formatDateAU(d)` (app.js:91-100): empty (JS-falsy string) input
yields `''`; a string matching `^\d{4}-\d{2}-\d{2}$` is split on `-`
and reassembled as `DD/MM/YYYY`; everything else passes through. -/
def formatDateAU (d : String) : String :=
  if d = "" then ""
  else if isoShape d then isoSwap d
  else d

/-- `formatDateAU` on a possibly-absent argument: JS `!d` is true for
`undefined`/`null` as well as `''`. -/
def formatDateAUOpt (d : Option String) : String :=
  match d with
  | none => ""
  | some s => formatDateAU s

/-- The date string the stamps sort reads for a pool:
`visited[p.id].date` (only evaluated on pools that passed the filter,
so the default is irrelevant there). -/
def dateOf (vm : VisitedMap) (p : Pool) : String :=
  match vm p.id with
  | some e => e.date
  | none => ""

/-- The comparator of renderStamps (app.js:268-270):
`visited[a.id].date.localeCompare(visited[b.id].date)`.  On the
all-ASCII date strings the app stores, locale comparison is plain
code-point lexicographic comparison, which is Lean's `String` order. -/
def dateLe (vm : VisitedMap) (a b : Pool) : Prop :=
  dateOf vm a ≤ dateOf vm b

instance (vm : VisitedMap) : DecidableRel (dateLe vm) := fun a b =>
  inferInstanceAs (Decidable (dateOf vm a ≤ dateOf vm b))

/-- `pools.filter(p => visited[p.id]?.done).sort(by date)` of
renderStamps (app.js:266-270).  JS `Array.prototype.sort` is a stable
sort by the comparator; `List.insertionSort` is a stable sort by the
same relation. -/
def visitedPools (vm : VisitedMap) (pools : List Pool) : List Pool :=
  List.insertionSort (dateLe vm) (pools.filter (stampsFilterPred vm))

/-- `Array.prototype.slice(a, b)` for possibly negative integer
arguments: each bound is normalised (negative values count from the
end, clamped at 0; positive values clamped at the length), and the
elements in `[start, end)` are returned. -/
def jsSlice (l : List Pool) (a b : Int) : List Pool :=
  let n : Int := l.length
  let norm : Int → Nat := fun x =>
    if x < 0 then (max (x + n) 0).toNat else min x.toNat l.length
  (l.take (norm b)).drop (norm a)

/-- `stampsPerPage = 3` (app.js:263). -/
def stampsPerPage : Nat := 3

/-- `Math.max(1, Math.ceil(v / 3))` (app.js:272) for a natural `v`. -/
def totalPagesOf (v : Nat) : Nat :=
  max 1 ((v + 2) / 3)

/-- `Math.min(currentStampsPage, totalPages - 1)` (app.js:273).  The
in-memory page index is a JS number, so it is taken as an integer. -/
def clampedPage (memPage : Int) (v : Nat) : Int :=
  min memPage ((totalPagesOf v : Int) - 1)

/-- The slice `visitedPools.slice(page*3, page*3 + 3)`
(app.js:276-279). -/
def stampsSlice (vp : List Pool) (page : Int) : List Pool :=
  jsSlice vp (page * (stampsPerPage : Int))
    (page * (stampsPerPage : Int) + (stampsPerPage : Int))

/-- One stamp card: the pool and the display text of its visit date,
`formatDateAU(v.date)` (app.js:295). -/
structure Card where
  pool : Pool
  dateText : String
deriving DecidableEq, Repr

/-- Result of one `renderStamps` call. -/
structure StampsRender where
  totalPages : Nat
  pageWritten : Int
  cards : List Card
  events : List Ev

/-- `renderStamps` (app.js:259-300): filter and sort the visited
pools, compute the page count, clamp the current page from above,
persist it with `writeStampsPage`, and build one card per pool of the
current slice.  It performs no other storage write. -/
def renderStamps (vm : VisitedMap) (pools : List Pool)
    (memPage : Int) : StampsRender :=
  let vp := visitedPools vm pools
  let tp := totalPagesOf vp.length
  let cp := min memPage ((tp : Int) - 1)
  { totalPages := tp
    pageWritten := cp
    cards := (stampsSlice vp cp).map fun p =>
      { pool := p, dateText := formatDateAU (dateOf vm p) }
    events := [.writeStampsPage] }

/-- `pools[i]` for a JS integer index: out-of-range and negative
indices yield `undefined`. -/
def jsIndex (pools : List Pool) (i : Int) : Option Pool :=
  if 0 ≤ i then pools.get? i.toNat else none

/-- The pool record renderList displays: after the empty-catalog
early return, `const p = pools[selectedIndex]` (app.js:162-169) —
the raw index, with no clamping or fallback. -/
def renderListSelected (pools : List Pool) (selectedIndex : Int) :
    Option Pool :=
  if pools.isEmpty then none else jsIndex pools selectedIndex

/-- The pool openInNativeMaps uses:
`const p = pools[selectedIndex] || pools[0]` (app.js:136), `none` when
even `pools[0]` is absent (the `if (!p) return` path). -/
def openInNativeMapsPool (pools : List Pool) (selectedIndex : Int) :
    Option Pool :=
  match jsIndex pools selectedIndex with
  | some p => some p
  | none => jsIndex pools 0

/-- The four persisted keys: `passportOwnerName`, `LS_KEYS.VISITED`,
`LS_KEYS.SELECTION`, `LS_KEYS.STAMPS_PAGE`.  Each holds an opaque
stored string or is absent. -/
structure Store where
  ownerName : Option String
  visitedKey : Option String
  selectionKey : Option String
  stampsPageKey : Option String
deriving DecidableEq, Repr

/-- Result of a click on the reset-profile button. -/
structure ResetResult where
  store : Store
  reloaded : Bool
  alerted : Bool
deriving DecidableEq, Repr

/-- The resetBtn click handler (overview.js:104-128): ask for
confirmation; on decline return with nothing touched; otherwise remove
the four keys inside a try block — when storage is unavailable the
first `removeItem` throws before removing anything, the catch alerts
and returns without reloading; on success `location.reload()` runs. -/
def resetProfile (confirmOk : Bool) (storageOk : Bool) (s : Store) :
    ResetResult :=
  if !confirmOk then
    { store := s, reloaded := false, alerted := false }
  else if !storageOk then
    { store := s, reloaded := false, alerted := true }
  else
    { store :=
        { ownerName := none, visitedKey := none
          selectionKey := none, stampsPageKey := none }
      reloaded := true, alerted := false }

/-! ## Helper lemmas -/

/-- What one toggle stores at a key: pointwise description of the
updated map. -/
def toggleAt (vm : VisitedMap) (a d : String) : Option VEntry :=
  if doneAt vm a then none else some ⟨true, d⟩

lemma toggleStamp_visited_apply (vm : VisitedMap) (a d i : String) :
    (toggleStamp vm a d).visited i =
      if i = a then toggleAt vm a d else vm i := by
  unfold toggleStamp toggleAt
  dsimp only
  by_cases hd : doneAt vm a <;> simp [hd]

/-- A concrete well-formed visited map used by witnesses. -/
def vmW : VisitedMap :=
  fun i => if i = "woolwich" then some ⟨true, "16/12/2025"⟩ else none

/-- A concrete ill-formed visited map (entry with `done = false`). -/
def vmBad : VisitedMap :=
  fun i => if i = "woolwich" then some ⟨false, "16/12/2025"⟩ else none

/-- A concrete pool used by witnesses. -/
def poolW : Pool := { id := "woolwich", name := "Woolwich Baths" }

/-- A concrete pool used by the C4 failing input. -/
def poolBalmain : Pool := { id := "balmain", name := "Balmain Baths" }

/-! ## Claims -/

/-- C8: for every visited map and pool ids `x ≠ y`, `toggleStamp` on
`x` leaves the entry of `y` unchanged. -/
theorem toggleStamp_frame (vm : VisitedMap) (x y today : String)
    (h : y ≠ x) : (toggleStamp vm x today).visited y = vm y := by
  rw [toggleStamp_visited_apply, if_neg h]

/-- Witness for C8 at a concrete input. -/
theorem toggleStamp_frame_witness :
    (toggleStamp emptyVisited "woolwich" "16/12/2025").visited "balmain" =
      emptyVisited "balmain" :=
  toggleStamp_frame emptyVisited "woolwich" "balmain" "16/12/2025"
    (by decide)

/-- C2: on a well-formed visited map (every present entry has
`done = true`, the spec's VisitedEntry invariant), `toggleStamp`
deletes the entry when one exists and otherwise inserts
`{done := true, date := today}`; it hands the whole updated map to
`writeVisited`, and that write happens before the two re-renders. -/
theorem toggleStamp_spec (vm : VisitedMap) (poolId today : String)
    (hwf : WellFormed vm) :
    ((vm poolId).isSome →
      (toggleStamp vm poolId today).visited poolId = none) ∧
    (vm poolId = none →
      (toggleStamp vm poolId today).visited poolId =
        some ⟨true, today⟩) ∧
    (toggleStamp vm poolId today).persisted =
      (toggleStamp vm poolId today).visited ∧
    (toggleStamp vm poolId today).events =
      [.writeVisited, .renderList, .renderStamps] := by
  refine ⟨?_, ?_, rfl, rfl⟩
  · intro hs
    rw [toggleStamp_visited_apply, if_pos rfl]
    unfold toggleAt
    cases hv : vm poolId with
    | none => rw [hv] at hs; cases hs
    | some e =>
        have hd : doneAt vm poolId = true := by
          unfold doneAt; rw [hv]; exact hwf poolId e hv
        rw [if_pos hd]
  · intro hn
    rw [toggleStamp_visited_apply, if_pos rfl]
    unfold toggleAt
    have hd : doneAt vm poolId = false := by unfold doneAt; rw [hn]
    rw [hd]
    simp

/-- Witness for C2 at a concrete input. -/
theorem toggleStamp_spec_witness :
    ((vmW "woolwich").isSome →
      (toggleStamp vmW "woolwich" "17/12/2025").visited "woolwich" =
        none) ∧
    (vmW "woolwich" = none →
      (toggleStamp vmW "woolwich" "17/12/2025").visited "woolwich" =
        some ⟨true, "17/12/2025"⟩) ∧
    (toggleStamp vmW "woolwich" "17/12/2025").persisted =
      (toggleStamp vmW "woolwich" "17/12/2025").visited ∧
    (toggleStamp vmW "woolwich" "17/12/2025").events =
      [.writeVisited, .renderList, .renderStamps] :=
  toggleStamp_spec vmW "woolwich" "17/12/2025"
    (by
      intro i e h
      unfold vmW at h
      split at h
      · cases h; rfl
      · cases h)

/-- C6: declining the confirmation leaves the four persisted keys
unchanged and does not reload; confirming removes all four keys and
reloads; when storage is unavailable the user is alerted and the
operation aborts without reloading. -/
theorem resetProfile_spec (s : Store) :
    resetProfile false true s =
      { store := s, reloaded := false, alerted := false } ∧
    resetProfile false false s =
      { store := s, reloaded := false, alerted := false } ∧
    resetProfile true true s =
      { store :=
          { ownerName := none, visitedKey := none
            selectionKey := none, stampsPageKey := none }
        reloaded := true, alerted := false } ∧
    resetProfile true false s =
      { store := s, reloaded := false, alerted := true } :=
  ⟨rfl, rfl, rfl, rfl⟩

/-- C10: `formatDateAU` maps absent and empty input to the empty
string and is the identity on every non-empty string that does not
match `^\d{4}-\d{2}-\d{2}$`. -/
theorem formatDateAU_passthrough :
    formatDateAUOpt none = "" ∧ formatDateAU "" = "" ∧
    ∀ s : String, s ≠ "" → isoShape s = false → formatDateAU s = s := by
  refine ⟨rfl, rfl, ?_⟩
  intro s hne hshape
  unfold formatDateAU
  rw [if_neg hne, hshape]
  simp

/-- Witness for C10 at concrete inputs. -/
theorem formatDateAU_passthrough_witness :
    formatDateAU "16/12/2025" = "16/12/2025" ∧
    formatDateAU "pool" = "pool" :=
  ⟨formatDateAU_passthrough.2.2 "16/12/2025" (by decide) (by decide),
   formatDateAU_passthrough.2.2 "pool" (by decide) (by decide)⟩

/-- C7: a stored legacy ISO date `YYYY-MM-DD` is displayed as
`DD/MM/YYYY`, and the stamps render path performs no write of the
visited map (its only storage write is the stamps-page key). -/
theorem formatDateAU_legacy (a b c e f g h i : Char)
    (hd : isoDigits a b c e f g h i = true) :
    formatDateAU (String.mk [a, b, c, e, '-', f, g, '-', h, i]) =
      String.mk [h, i, '/', f, g, '/', a, b, c, e] ∧
    ∀ (vm : VisitedMap) (pools : List Pool) (memPage : Int),
      Ev.writeVisited ∉ (renderStamps vm pools memPage).events := by
  constructor
  · have hne : String.mk [a, b, c, e, '-', f, g, '-', h, i] ≠ "" := by
      intro hcon
      simpa using congrArg String.toList hcon
    have hsh : isoShape (String.mk [a, b, c, e, '-', f, g, '-', h, i]) =
        isoDigits a b c e f g h i := rfl
    unfold formatDateAU
    rw [if_neg hne, hsh, hd]
    simp [isoSwap]
  · intro vm pools memPage
    unfold renderStamps
    simp

/-- Witness for C7: `2025-12-16` displays as `16/12/2025`. -/
theorem formatDateAU_legacy_witness :
    formatDateAU (String.mk
        ['2', '0', '2', '5', '-', '1', '2', '-', '1', '6']) =
      String.mk ['1', '6', '/', '1', '2', '/', '2', '0', '2', '5'] ∧
    ∀ (vm : VisitedMap) (pools : List Pool) (memPage : Int),
      Ev.writeVisited ∉ (renderStamps vm pools memPage).events :=
  formatDateAU_legacy '2' '0' '2' '5' '1' '2' '1' '6' (by decide)

/-- C4 (failing input): with a one-pool catalog and persisted
selection index 1 (a stale index after the catalog shrank),
`renderList` reads no pool record at all — `pools[selectedIndex]` is
`undefined` and the subsequent `p.id` dereference crashes — instead of
treating the out-of-range index as 0.  `openInNativeMaps`, by
contrast, does fall back to the pool at index 0. -/
theorem renderList_missing_record :
    renderListSelected [poolBalmain] 1 = none ∧
    openInNativeMapsPool [poolBalmain] 1 = some poolBalmain := by
  constructor <;> rfl

lemma applyToggles_parity (ops : List (String × String))
    (vm : VisitedMap) (X : String)
    (hwf : ∀ e, vm X = some e → e.done = true) :
    hasEntry (applyToggles ops vm) X =
      xor (hasEntry vm X)
        (decide ((ops.countP fun op => decide (op.1 = X)) % 2 = 1)) := by
  induction ops generalizing vm with
  | nil => simp [applyToggles, hasEntry]
  | cons op ops ih =>
      have step : applyToggles (op :: ops) vm =
          applyToggles ops (toggleStamp vm op.1 op.2).visited := rfl
      rw [step]
      by_cases hop : op.1 = X
      · have hcnt : ((op :: ops).countP fun o => decide (o.1 = X)) =
            (ops.countP fun o => decide (o.1 = X)) + 1 := by
          simp [List.countP_cons, hop]
        cases hv : vm X with
        | none =>
            have hnew : (toggleStamp vm op.1 op.2).visited X =
                some ⟨true, op.2⟩ := by
              rw [toggleStamp_visited_apply, if_pos hop.symm]
              unfold toggleAt doneAt
              rw [hop, hv]
              simp
            rw [ih _ (by intro e h; rw [hnew] at h; cases h; rfl)]
            unfold hasEntry
            rw [hnew, hv, hcnt]
            rcases Nat.mod_two_eq_zero_or_one
                (ops.countP fun o => decide (o.1 = X)) with h | h <;>
              simp [Nat.add_mod, h]
        | some e =>
            have hdn : doneAt vm op.1 = true := by
              unfold doneAt; rw [hop, hv]; exact hwf e hv
            have hnew : (toggleStamp vm op.1 op.2).visited X = none := by
              rw [toggleStamp_visited_apply, if_pos hop.symm]
              unfold toggleAt
              rw [hdn]
              simp
            rw [ih _ (by intro e' h; rw [hnew] at h; cases h)]
            unfold hasEntry
            rw [hnew, hv, hcnt]
            rcases Nat.mod_two_eq_zero_or_one
                (ops.countP fun o => decide (o.1 = X)) with h | h <;>
              simp [Nat.add_mod, h]
      · have hcnt : ((op :: ops).countP fun o => decide (o.1 = X)) =
            (ops.countP fun o => decide (o.1 = X)) := by
          simp [List.countP_cons, hop]
        have hsame : (toggleStamp vm op.1 op.2).visited X = vm X := by
          rw [toggleStamp_visited_apply,
            if_neg (fun hXa => hop hXa.symm)]
        rw [ih _ (by intro e h; rw [hsame] at h; exact hwf e h)]
        unfold hasEntry
        rw [hsame, hcnt]

/-- C1: starting from the empty visited map, after any sequence of
toggle operations a pool id has a VisitedEntry iff the number of
toggles applied to that id is odd. -/
theorem toggle_parity (ops : List (String × String)) (X : String) :
    hasEntry (applyToggles ops emptyVisited) X = true ↔
      (ops.countP fun op => decide (op.1 = X)) % 2 = 1 := by
  have h := applyToggles_parity ops emptyVisited X (fun e hc => by cases hc)
  have he : hasEntry emptyVisited X = false := rfl
  rw [h, he]
  simp

/-- C3 (counterexample): the render clamps the page index only from
above (`Math.min`), so a negative in-memory page index is persisted
negative — with zero pools visited and in-memory page `-1`, the
persisted index is `-1`, outside `[0, pages-1]`. -/
theorem stampsPage_negative_counterexample :
    (renderStamps emptyVisited [] (-1)).pageWritten = -1 ∧
    ¬(0 ≤ (renderStamps emptyVisited [] (-1)).pageWritten) := by
  constructor <;> decide

/-- C3 (amended): for every visited state and every *non-negative*
in-memory page index, after a stamps render the page count is
`max(1, ceil(v/3))` and the persisted page index lies in
`[0, pages-1]`. -/
theorem stampsPage_clamped (vm : VisitedMap) (pools : List Pool)
    (memPage : Int) (hmem : 0 ≤ memPage) :
    (renderStamps vm pools memPage).totalPages =
      max 1 (((visitedPools vm pools).length + 3 - 1) / 3) ∧
    0 ≤ (renderStamps vm pools memPage).pageWritten ∧
    (renderStamps vm pools memPage).pageWritten ≤
      ((renderStamps vm pools memPage).totalPages : Int) - 1 := by
  unfold renderStamps
  dsimp only
  refine ⟨by unfold totalPagesOf; omega, ?_, ?_⟩
  · have h1 : (1 : Nat) ≤ totalPagesOf (visitedPools vm pools).length :=
      le_max_left _ _
    exact le_min hmem (by omega)
  · exact min_le_right _ _

/-- Witness for C3's amended theorem at a concrete input. -/
theorem stampsPage_clamped_witness :
    (renderStamps emptyVisited [] 5).totalPages =
      max 1 (((visitedPools emptyVisited []).length + 3 - 1) / 3) ∧
    0 ≤ (renderStamps emptyVisited [] 5).pageWritten ∧
    (renderStamps emptyVisited [] 5).pageWritten ≤
      ((renderStamps emptyVisited [] 5).totalPages : Int) - 1 :=
  stampsPage_clamped emptyVisited [] 5 (by decide)

/-- C9: an entry whose `done` field is false is rendered not-visited
by the list view, excluded from the stamps gallery, drawn as a
not-visited overview marker, and overwritten (not deleted) by the
next toggle on its id. -/
theorem doneFalsy_consumers (vm : VisitedMap) (i today : String)
    (e : VEntry) (pools : List Pool)
    (hfound : vm i = some e) (hfalsy : e.done = false) :
    renderListStamped vm i = false ∧
    (∀ p : Pool, p.id = i → p ∉ visitedPools vm pools) ∧
    overviewIsVisited vm i = false ∧
    (toggleStamp vm i today).visited i = some ⟨true, today⟩ := by
  have hdone : doneAt vm i = false := by
    unfold doneAt; rw [hfound]; exact hfalsy
  refine ⟨?_, ?_, ?_, ?_⟩
  · unfold renderListStamped; rw [hfound]; exact hfalsy
  · intro p hp hmem
    have hmem' : p ∈ pools.filter (stampsFilterPred vm) :=
      (List.perm_insertionSort _ _).subset hmem
    have hpred := (List.mem_filter.mp hmem').2
    rw [show stampsFilterPred vm p = doneAt vm p.id from rfl, hp,
      hdone] at hpred
    cases hpred
  · unfold overviewIsVisited; rw [hfound]; exact hfalsy
  · rw [toggleStamp_visited_apply, if_pos rfl]
    unfold toggleAt
    rw [hdone]
    simp

/-- Witness for C9 at a concrete ill-formed map. -/
theorem doneFalsy_consumers_witness :
    renderListStamped vmBad "woolwich" = false ∧
    (∀ p : Pool, p.id = "woolwich" → p ∉ visitedPools vmBad [poolW]) ∧
    overviewIsVisited vmBad "woolwich" = false ∧
    (toggleStamp vmBad "woolwich" "17/12/2025").visited "woolwich" =
      some ⟨true, "17/12/2025"⟩ :=
  doneFalsy_consumers vmBad "woolwich" "17/12/2025"
    ⟨false, "16/12/2025"⟩ [poolW] (by rfl) (by rfl)

lemma stampsSlice_natCast (vp : List Pool) (k : Nat) :
    stampsSlice vp (k : Int) = (vp.drop (3 * k)).take 3 := by
  unfold stampsSlice jsSlice stampsPerPage
  dsimp only
  push_cast
  have h0 : ¬((k : Int) * 3 < 0) := by omega
  have h1 : ¬((k : Int) * 3 + 3 < 0) := by omega
  rw [if_neg h1, if_neg h0]
  have t1 : ((k : Int) * 3).toNat = 3 * k := by omega
  have t2 : ((k : Int) * 3 + 3).toNat = 3 * k + 3 := by omega
  rw [t1, t2]
  rcases le_or_lt vp.length (3 * k) with hle | hlt
  · rw [min_eq_right hle, min_eq_right (by omega : vp.length ≤ 3 * k + 3),
      List.take_length, List.drop_eq_nil_of_le (le_refl _),
      List.drop_eq_nil_of_le hle]
    rfl
  · rw [min_eq_left (le_of_lt hlt), List.drop_take]
    rcases le_or_lt (3 * k + 3) vp.length with h3 | h3
    · rw [min_eq_left h3]
      congr 1
      omega
    · rw [min_eq_right (le_of_lt h3)]
      have hlen : (vp.drop (3 * k)).length = vp.length - 3 * k :=
        List.length_drop _ _
      rw [List.take_of_length_le (by omega),
        List.take_of_length_le (by omega)]

/-- C5: the stamps renderer shows exactly the catalog pools that have
a VisitedEntry (on a well-formed map), in ascending lexicographic
order of the stored date strings; the cards of a render are the slice
of that ordered list at the current page, and for page `k` that slice
is positions `3k` up to (excluding) `3k+3`. -/
theorem renderStamps_selection (vm : VisitedMap) (pools : List Pool)
    (k : Nat) (hwf : WellFormed vm) :
    List.Perm (visitedPools vm pools)
      (pools.filter fun p => (vm p.id).isSome) ∧
    List.Sorted (dateLe vm) (visitedPools vm pools) ∧
    (∀ memPage : Int,
      (renderStamps vm pools memPage).cards.map Card.pool =
        stampsSlice (visitedPools vm pools)
          ((renderStamps vm pools memPage).pageWritten)) ∧
    stampsSlice (visitedPools vm pools) (k : Int) =
      ((visitedPools vm pools).drop (3 * k)).take 3 := by
  refine ⟨?_, ?_, ?_, stampsSlice_natCast _ _⟩
  · unfold visitedPools
    have hfe : pools.filter (stampsFilterPred vm) =
        pools.filter (fun p => (vm p.id).isSome) := by
      apply List.filter_congr
      intro p _
      unfold stampsFilterPred
      cases hv : vm p.id with
      | none => simp
      | some e2 => simp [hwf p.id e2 hv]
    rw [hfe]
    exact List.perm_insertionSort _ _
  · haveI : IsTotal Pool (dateLe vm) := ⟨fun a b => le_total _ _⟩
    haveI : IsTrans Pool (dateLe vm) :=
      ⟨fun a b c hab hbc => le_trans hab hbc⟩
    exact List.sorted_insertionSort _ _
  · intro memPage
    unfold renderStamps
    simp [List.map_map, Function.comp_def]

/-- Witness for C5 at a concrete input. -/
theorem renderStamps_selection_witness :
    List.Perm (visitedPools vmW [poolW, poolBalmain])
      ([poolW, poolBalmain].filter fun p => (vmW p.id).isSome) ∧
    List.Sorted (dateLe vmW) (visitedPools vmW [poolW, poolBalmain]) ∧
    (∀ memPage : Int,
      (renderStamps vmW [poolW, poolBalmain] memPage).cards.map
          Card.pool =
        stampsSlice (visitedPools vmW [poolW, poolBalmain])
          ((renderStamps vmW [poolW, poolBalmain] memPage).pageWritten)) ∧
    stampsSlice (visitedPools vmW [poolW, poolBalmain]) ((0 : Nat) : Int) =
      ((visitedPools vmW [poolW, poolBalmain]).drop (3 * 0)).take 3 :=
  renderStamps_selection vmW [poolW, poolBalmain] 0
    (by
      intro i e h
      unfold vmW at h
      split at h
      · cases h; rfl
      · cases h)

end HarbourPools
